import Mathlib

/-!
Verification of the math-mind-grader step-by-step grading system.

The development shallowly embeds, in Lean 4:
  - the gold-solution editor operations of
    src/src/components/exam-builder/GoldSolutionEditor.tsx;
  - the submission score-percentage display of the SubmissionDetail page;
  - the TypeScript result types of src/src/pages/CourseDetail.tsx;
  - the step-by-step grading core (normalizer, parser/evaluator, step
    matcher, scoring policy, grader facade).  The repository ships only the
    grading core's README and its HTTP launcher under src/maths; the Python
    module math_grader.py itself is not in the tree, so the grading core is
    modelled from the specification (sections 3, 4.1-4.5, 7).

Scores are rationals; machine floating point plays no role in the claims
settled here, which are about exact score arithmetic and control flow.
-/

namespace MathMind

/-! ## Data model (spec section 3) -/

/-- Status of one evaluated step: the closed three-valued enumeration of
spec section 3. -/
inductive StepStatus
  | correct
  | partiallyCorrect
  | incorrect
deriving DecidableEq, Repr

/-- Modelled from the spec: one line of the instructor-authored reference
solution (spec section 3, GoldStep). -/
structure GoldStep where
  content : String
  points : ℚ
  required : Bool
  order : ℕ
  description : Option String := none
deriving DecidableEq, Repr

/-- Modelled from the spec: the per-gold-step output unit
(spec section 3, StepEvaluation). -/
structure StepEvaluation where
  step_number : ℕ
  status : StepStatus
  points_earned : ℚ
  points_possible : ℚ
  feedback : String
  matched_gold_index : Option ℕ
  expected : Option String
  received : Option String
deriving DecidableEq, Repr

/-- Modelled from the spec: the aggregate result of one grading call
(spec section 3, GradingResult). -/
structure GradingResult where
  evaluations : List StepEvaluation
  total_score : ℚ
  max_score : ℚ
  percentage : ℚ
deriving DecidableEq, Repr

/-! ## Gold-solution editor (src/src/components/exam-builder/GoldSolutionEditor.tsx)

The editor keeps a list of steps of the GoldStep shape declared in
QuestionBuilder.tsx: stepNumber, description, expression, latex, points,
required.  Form state is a TypeScript Partial of that shape, so every field
may be absent; absent and falsy fields are replaced by defaults in
handleAddStep. -/

/-- Editor-side gold step, as declared in QuestionBuilder.tsx and stored by
GoldSolutionEditor. -/
structure EditorGoldStep where
  stepNumber : ℕ
  description : String
  expression : String
  latex : String
  points : ℚ
  required : Bool
deriving DecidableEq, Repr

/-- Form state for the add-step form: a TypeScript Partial of the editor
GoldStep, every field optional. -/
structure NewStepForm where
  description : Option String := none
  expression : Option String := none
  latex : Option String := none
  points : Option ℚ := none
  required : Option Bool := none
deriving DecidableEq, Repr

/-- JavaScript truthiness default for a possibly-absent string:
the idiom s || d yields d when s is undefined or the empty string. -/
def jsOrStr (s : Option String) (d : String) : String :=
  match s with
  | none => d
  | some v => if v = "" then d else v

/-- JavaScript truthiness default for a possibly-absent number:
the idiom n || d yields d when n is undefined or 0. -/
def jsOrNum (n : Option ℚ) (d : ℚ) : ℚ :=
  match n with
  | none => d
  | some v => if v = 0 then d else v

/-- Construction of the stored step inside handleAddStep
(GoldSolutionEditor.tsx lines 40-47): stepNumber is steps.length + 1,
string fields default to the empty string, points defaults to 5 when falsy,
and required is stored as the test that the form value is not literally
false. -/
def mkGoldStep (stepsLen : ℕ) (f : NewStepForm) : EditorGoldStep :=
  { stepNumber := stepsLen + 1
    description := jsOrStr f.description ""
    expression := jsOrStr f.expression ""
    latex := jsOrStr f.latex ""
    points := jsOrNum f.points 5
    required := decide (f.required ≠ some false) }

/-- The handleAddStep handler (GoldSolutionEditor.tsx lines 34-60): a falsy
expression aborts with a toast and no state change; otherwise the freshly
built step is appended. -/
def handleAddStep (steps : List EditorGoldStep) (f : NewStepForm) :
    List EditorGoldStep :=
  if jsOrStr f.expression "" = "" then steps
  else steps ++ [mkGoldStep steps.length f]

/-- Renumbering applied after a removal: position i receives stepNumber
i + 1 (the map over filtered steps in removeStep). -/
def renumber (start : ℕ) : List EditorGoldStep → List EditorGoldStep
  | [] => []
  | s :: rest => { s with stepNumber := start } :: renumber (start + 1) rest

/-- The removeStep handler (GoldSolutionEditor.tsx lines 62-67): drop the
step with the given stepNumber, then renumber the survivors 1, 2, ... in
array order. -/
def removeStep (steps : List EditorGoldStep) (n : ℕ) : List EditorGoldStep :=
  renumber 1 (steps.filter (fun s => s.stepNumber ≠ n))

/-- One user action in the gold-solution editor. -/
inductive EditorOp
  | add (f : NewStepForm)
  | remove (n : ℕ)

/-- Apply one editor action to the stored step list. -/
def applyOp (steps : List EditorGoldStep) : EditorOp → List EditorGoldStep
  | EditorOp.add f => handleAddStep steps f
  | EditorOp.remove n => removeStep steps n

/-- Run a sequence of editor actions starting from the empty step list. -/
def runOps (ops : List EditorOp) : List EditorGoldStep :=
  ops.foldl applyOp []

/-! ## Submission percentage display (SubmissionDetail, src/unnamed/part_000) -/

/-- JavaScript Math.round: round half toward positive infinity. -/
def jsRound (q : ℚ) : ℤ := ⌊q + 1/2⌋

/-- The scorePercentage computation of SubmissionDetail (src/unnamed/part_000
lines 26-28): when totalScore is truthy, Math.round of the ratio times 100,
otherwise 0. -/
def scorePercentage (totalScore : Option ℚ) (maxScore : ℚ) : ℚ :=
  match totalScore with
  | none => 0
  | some t => if t = 0 then 0 else (jsRound (t / maxScore * 100) : ℚ)

/-! ## TypeScript result types (src/src/pages/CourseDetail.tsx lines 486-502)

These are the shapes the UI consumes for a graded answer.  Numbers are
modelled as rationals. -/

/-- Per-step grading outcome as the UI declares it (StepResult in
CourseDetail.tsx): correctness is a two-valued boolean, with score and
maxScore numbers. -/
structure StepResult where
  stepNumber : ℕ
  isCorrect : Bool
  score : ℚ
  maxScore : ℚ
  feedback : String
  expected : Option String := none
  received : Option String := none
deriving DecidableEq, Repr

/-- Whole-answer grading outcome as the UI declares it (GradingResult in
CourseDetail.tsx). -/
structure GradingResultTS where
  score : ℚ
  maxScore : ℚ
  feedback : String
  stepResults : List StepResult
  isCorrect : Bool
deriving DecidableEq, Repr

/-- The collapse of the three-valued status onto the boolean field the UI
stores per step: only a fully correct step maps to true. -/
def statusToIsCorrect (s : StepStatus) : Bool :=
  s = StepStatus.correct

/-! ## Expression normalizer (spec section 4.1)

Modelled from the spec: math_grader.py is not in the repository tree; the
normalizer canonicalizes whitespace, maps the double-star exponent spelling
to the caret, makes implicit multiplication explicit, and strips trailing
punctuation.  It never fails. -/

/-- Whitespace characters collapsed away by the normalizer. -/
def isWhitespaceChar (c : Char) : Bool :=
  c = ' ' || c = '\t' || c = '\n' || c = '\r'

/-- Trailing punctuation that does not affect mathematical content. -/
def isTrailingPunct (c : Char) : Bool :=
  c = '.' || c = ',' || c = ';' || c = ':' || c = '!' || c = '?'

/-- Map the double-star exponent spelling to the canonical caret. -/
def canonPow : List Char → List Char
  | '*' :: '*' :: rest => '^' :: canonPow rest
  | c :: rest => c :: canonPow rest
  | [] => []

/-- Whether an explicit multiplication sign belongs between two adjacent
characters: a digit or closing bracket directly followed by a letter, a
digit or an opening bracket denotes implicit multiplication. -/
def needsTimes (a b : Char) : Bool :=
  (a.isDigit && (b.isAlpha || b = '(')) ||
  (a = ')' && (b.isAlpha || b.isDigit || b = '('))

/-- Insert explicit multiplication signs at implicit-multiplication
junctions. -/
def insertTimes : List Char → List Char
  | a :: b :: rest =>
    if needsTimes a b then a :: '*' :: insertTimes (b :: rest)
    else a :: insertTimes (b :: rest)
  | l => l

/-- Drop trailing punctuation. -/
def stripTrailing (l : List Char) : List Char :=
  (l.reverse.dropWhile isTrailingPunct).reverse

/-- Modelled from the spec: the canonical character sequence of a raw
expression string (spec section 4.1, normalize).  Total: unrecognized
content passes through unchanged. -/
def normChars (s : String) : List Char :=
  insertTimes (canonPow (stripTrailing
    (s.toList.filter (fun c => !isWhitespaceChar c))))

/-- Modelled from the spec: normalize, as a string-to-string map. -/
def normalize (s : String) : String := String.mk (normChars s)

/-- Modelled from the spec: textual equality of normalized forms
(spec section 4.2, equals_exact). -/
def equalsExact (a b : String) : Bool := normChars a == normChars b

/-! ## Symbolic parser and evaluator (spec section 4.2)

Modelled from the spec: a recursive-descent parser over the normalized
character stream; parsing fails exactly when the text does not form a
single expression or equation, e.g. free-form prose. -/

/-- Lexical token of the expression language. -/
inductive Tok
  | num (q : ℚ)
  | varT (c : Char)
  | plusT
  | minusT
  | starT
  | slashT
  | caretT
  | eqT
  | lparen
  | rparen
deriving DecidableEq, Repr

/-- Numeric value of a decimal digit character. -/
def digitVal (c : Char) : ℕ := c.toNat - 48

/-- Natural number denoted by a digit string. -/
def natOfDigits (ds : List Char) : ℕ :=
  ds.foldl (fun a c => 10 * a + digitVal c) 0

/-- Read a decimal literal (integer part, optional fraction) from the head
of the character stream, returning its value and the remaining input. -/
def readNumber (cs : List Char) : ℚ × List Char :=
  let ip := cs.takeWhile Char.isDigit
  let r1 := cs.dropWhile Char.isDigit
  match r1 with
  | '.' :: r2 =>
    let fp := r2.takeWhile Char.isDigit
    let r3 := r2.dropWhile Char.isDigit
    ((natOfDigits ip : ℚ) + (natOfDigits fp : ℚ) / ((10 : ℚ) ^ fp.length), r3)
  | _ => ((natOfDigits ip : ℚ), r1)

/-- Tokenizer with explicit fuel (one unit per consumed character is
enough); an unrecognized character rejects the whole input. -/
def tokenizeAux : ℕ → List Char → Option (List Tok)
  | _, [] => some []
  | 0, _ :: _ => none
  | fuel + 1, c :: cs =>
    if c.isDigit then
      let (q, rest) := readNumber (c :: cs)
      (tokenizeAux fuel rest).map (fun ts => Tok.num q :: ts)
    else if c.isAlpha then
      (tokenizeAux fuel cs).map (fun ts => Tok.varT c :: ts)
    else if c = '+' then (tokenizeAux fuel cs).map (fun ts => Tok.plusT :: ts)
    else if c = '-' then (tokenizeAux fuel cs).map (fun ts => Tok.minusT :: ts)
    else if c = '*' then (tokenizeAux fuel cs).map (fun ts => Tok.starT :: ts)
    else if c = '/' then (tokenizeAux fuel cs).map (fun ts => Tok.slashT :: ts)
    else if c = '^' then (tokenizeAux fuel cs).map (fun ts => Tok.caretT :: ts)
    else if c = '=' then (tokenizeAux fuel cs).map (fun ts => Tok.eqT :: ts)
    else if c = '(' then (tokenizeAux fuel cs).map (fun ts => Tok.lparen :: ts)
    else if c = ')' then (tokenizeAux fuel cs).map (fun ts => Tok.rparen :: ts)
    else none

/-- Tokenize a whole character list. -/
def tokenize (l : List Char) : Option (List Tok) := tokenizeAux l.length l

/-- Abstract syntax of parsed mathematical expressions. -/
inductive MExpr
  | num (q : ℚ)
  | varE (c : Char)
  | add (a b : MExpr)
  | sub (a b : MExpr)
  | mul (a b : MExpr)
  | div (a b : MExpr)
  | pow (a b : MExpr)
  | neg (a : MExpr)
deriving DecidableEq, Repr

mutual

/-- Parse a sum of terms (lowest precedence level). -/
def parseExpr : ℕ → List Tok → Option (MExpr × List Tok)
  | 0, _ => none
  | fuel + 1, ts => do
    let (t, rest) ← parseTerm fuel ts
    parseExprRest fuel t rest

/-- Left-associative continuation of a sum. -/
def parseExprRest : ℕ → MExpr → List Tok → Option (MExpr × List Tok)
  | 0, _, _ => none
  | fuel + 1, acc, Tok.plusT :: ts => do
    let (t, rest) ← parseTerm fuel ts
    parseExprRest fuel (MExpr.add acc t) rest
  | fuel + 1, acc, Tok.minusT :: ts => do
    let (t, rest) ← parseTerm fuel ts
    parseExprRest fuel (MExpr.sub acc t) rest
  | _ + 1, acc, ts => some (acc, ts)

/-- Parse a product of factors. -/
def parseTerm : ℕ → List Tok → Option (MExpr × List Tok)
  | 0, _ => none
  | fuel + 1, ts => do
    let (f, rest) ← parseFactor fuel ts
    parseTermRest fuel f rest

/-- Left-associative continuation of a product. -/
def parseTermRest : ℕ → MExpr → List Tok → Option (MExpr × List Tok)
  | 0, _, _ => none
  | fuel + 1, acc, Tok.starT :: ts => do
    let (f, rest) ← parseFactor fuel ts
    parseTermRest fuel (MExpr.mul acc f) rest
  | fuel + 1, acc, Tok.slashT :: ts => do
    let (f, rest) ← parseFactor fuel ts
    parseTermRest fuel (MExpr.div acc f) rest
  | _ + 1, acc, ts => some (acc, ts)

/-- Parse a signed power (exponentiation binds tighter than product and is
right associative). -/
def parseFactor : ℕ → List Tok → Option (MExpr × List Tok)
  | 0, _ => none
  | fuel + 1, Tok.minusT :: ts => do
    let (f, rest) ← parseFactor fuel ts
    return (MExpr.neg f, rest)
  | fuel + 1, ts => do
    let (a, rest) ← parseAtom fuel ts
    match rest with
    | Tok.caretT :: ts2 => do
      let (b, rest2) ← parseFactor fuel ts2
      return (MExpr.pow a b, rest2)
    | _ => return (a, rest)

/-- Parse a literal, a variable, or a parenthesized sum. -/
def parseAtom : ℕ → List Tok → Option (MExpr × List Tok)
  | 0, _ => none
  | _ + 1, Tok.num q :: ts => some (MExpr.num q, ts)
  | _ + 1, Tok.varT c :: ts => some (MExpr.varE c, ts)
  | fuel + 1, Tok.lparen :: ts => do
    let (e, rest) ← parseExpr fuel ts
    match rest with
    | Tok.rparen :: rest2 => some (e, rest2)
    | _ => none
  | _ + 1, _ => none

end

/-- Parsed mathematical content: a bare expression or an equation. -/
inductive Parsed
  | expr (e : MExpr)
  | eqn (lhs rhs : MExpr)
deriving DecidableEq, Repr

/-- Modelled from the spec: parse (spec section 4.2) applied to the
normalized text.  Returns none exactly when the text contains no
recognizable single piece of mathematical content, for example free-form
prose; five fuel units per token bound the descent depth of the grammar. -/
def parseMath (s : String) : Option Parsed :=
  match tokenize (normChars s) with
  | none => none
  | some [] => none
  | some ts =>
    match parseExpr (5 * ts.length + 5) ts with
    | none => none
    | some (e, []) => some (Parsed.expr e)
    | some (e, Tok.eqT :: rest) =>
      match parseExpr (5 * rest.length + 5) rest with
      | some (r, []) => some (Parsed.eqn e r)
      | _ => none
    | some _ => none

/-- Evaluate an expression at a rational assignment of the variables;
none signals a domain error (division by zero, non-integer or negative
exponent of zero), per spec section 7 EvaluationDomainError. -/
def evalExpr : MExpr → (Char → ℚ) → Option ℚ
  | MExpr.num q, _ => some q
  | MExpr.varE c, σ => some (σ c)
  | MExpr.add a b, σ => do return (← evalExpr a σ) + (← evalExpr b σ)
  | MExpr.sub a b, σ => do return (← evalExpr a σ) - (← evalExpr b σ)
  | MExpr.mul a b, σ => do return (← evalExpr a σ) * (← evalExpr b σ)
  | MExpr.div a b, σ => do
    let x ← evalExpr a σ
    let y ← evalExpr b σ
    if y = 0 then none else return x / y
  | MExpr.pow a b, σ => do
    let x ← evalExpr a σ
    let y ← evalExpr b σ
    if y.den = 1 then
      if x = 0 ∧ y.num < 0 then none else return x ^ y.num
    else none
  | MExpr.neg a, σ => do return -(← evalExpr a σ)

/-- Free variables of an expression, in syntactic order with repetitions. -/
def freeVars : MExpr → List Char
  | MExpr.num _ => []
  | MExpr.varE c => [c]
  | MExpr.add a b => freeVars a ++ freeVars b
  | MExpr.sub a b => freeVars a ++ freeVars b
  | MExpr.mul a b => freeVars a ++ freeVars b
  | MExpr.div a b => freeVars a ++ freeVars b
  | MExpr.pow a b => freeVars a ++ freeVars b
  | MExpr.neg a => freeVars a

/-! ## Seeded pseudo-random sampling (spec sections 4.2 and 8)

Modelled from the spec: the numeric fallback of the equivalence check
evaluates both sides at several pseudo-random rational assignments drawn
from a fixed-seed linear congruential generator, so every grading run sees
the same sample points. -/

/-- One step of the linear congruential generator. -/
def lcgNext (x : ℕ) : ℕ := (1103515245 * x + 12345) % 2147483648

/-- The fixed seed of the sampler: a compile-time constant, shared by every
call. -/
def fixedSeed : ℕ := 20240613

/-- The n-th state of the generator started at the fixed seed. -/
def lcgAt : ℕ → ℕ
  | 0 => fixedSeed
  | n + 1 => lcgNext (lcgAt n)

/-- Map a generator state to a sample rational in roughly [-100/7, 100/7]. -/
def sampleValue (x : ℕ) : ℚ := ((x % 201 : ℕ) : ℚ) / 7 - 100 / 7

/-- Number of sample assignments tried by the numeric fallback. -/
def sampleCount : ℕ := 3

/-- The i-th sample assignment for a given (deduplicated) variable list:
variable number k receives the sample value of generator state
i * length + k + 1. -/
def sampleAssign (vars : List Char) (i : ℕ) : Char → ℚ :=
  fun c => sampleValue (lcgAt (i * vars.length + vars.indexOf c + 1))

/-- Numeric agreement of two expressions within a tolerance: evaluate both
at every sample assignment of their joint variables; a sample where either
side hits a domain error is inconclusive; equivalence needs at least one
conclusive sample and agreement within the tolerance on all of them. -/
def numericAgree (a b : MExpr) (tol : ℚ) : Bool :=
  let vars := (freeVars a ++ freeVars b).dedup
  let pairs := (List.range sampleCount).map
    (fun i => (evalExpr a (sampleAssign vars i), evalExpr b (sampleAssign vars i)))
  let conclusive := pairs.filterMap
    (fun p => match p with
      | (some x, some y) => some (x, y)
      | _ => none)
  !conclusive.isEmpty && conclusive.all (fun p => decide (|p.1 - p.2| ≤ tol))

/-- View parsed content as a single expression: an equation becomes the
difference of its sides (move all terms to one side). -/
def diffView : Parsed → MExpr
  | Parsed.expr e => e
  | Parsed.eqn l r => MExpr.sub l r

/-- Modelled from the spec: mathematical equivalence under a tolerance
(spec section 4.2, equivalent).  Two equations are compared through their
moved-to-one-side differences and two expressions directly; identical
syntax trees are symbolically conclusive, otherwise the seeded numeric
fallback decides; unparseable or mixed content is never equivalent. -/
def equivalent (a b : String) (tol : ℚ) : Bool :=
  match parseMath a, parseMath b with
  | some (Parsed.eqn l1 r1), some (Parsed.eqn l2 r2) =>
    let d1 := MExpr.sub l1 r1
    let d2 := MExpr.sub l2 r2
    d1 == d2 || numericAgree d1 d2 tol
  | some (Parsed.expr e1), some (Parsed.expr e2) =>
    e1 == e2 || numericAgree e1 e2 tol
  | _, _ => false

/-- All subterms of an expression. -/
def subexprs : MExpr → List MExpr
  | MExpr.num q => [MExpr.num q]
  | MExpr.varE c => [MExpr.varE c]
  | MExpr.add a b => MExpr.add a b :: (subexprs a ++ subexprs b)
  | MExpr.sub a b => MExpr.sub a b :: (subexprs a ++ subexprs b)
  | MExpr.mul a b => MExpr.mul a b :: (subexprs a ++ subexprs b)
  | MExpr.div a b => MExpr.div a b :: (subexprs a ++ subexprs b)
  | MExpr.pow a b => MExpr.pow a b :: (subexprs a ++ subexprs b)
  | MExpr.neg a => MExpr.neg a :: subexprs a

/-- Whether an expression is compound (not a bare literal or variable). -/
def isCompound : MExpr → Bool
  | MExpr.num _ => false
  | MExpr.varE _ => false
  | _ => true

/-- Whether two expressions share a compound subterm. -/
def sharesSubexpr (a b : MExpr) : Bool :=
  (subexprs a).any (fun s => isCompound s && (subexprs b).contains s)

/-- Modelled from the spec: is_intermediate_step (spec section 4.2), the
structural-subexpression branch of the heuristic: the candidate parses, is
equivalent outright to neither surrounding gold step, and shares a compound
subterm with the target gold step.  The one-extra-algebraic-operation
branch of the heuristic is not modelled; the matcher consults equivalence
first, preserving the monotonicity contract. -/
def isIntermediateStep (cand : String) (fromG : Option String) (toG : String)
    (tol : ℚ) : Bool :=
  match parseMath cand, parseMath toG with
  | some pc, some pt =>
    !equivalent cand toG tol &&
    (match fromG with
     | some f => !equivalent cand f tol
     | none => true) &&
    sharesSubexpr (diffView pc) (diffView pt)
  | _, _ => false

/-! ## Step matcher (spec section 4.3)

Modelled from the spec: a single left-to-right pass with one pointer into
the gold sequence and a skip-one lookahead.  The matcher fills one slot per
gold step; a slot records either match evidence or, for feedback only, the
unmatched student step seen while that gold step was current. -/

/-- Confidence of a recorded match (spec section 3, MatchResult). -/
inductive MatchConfidence
  | Exact
  | Equivalent
  | IntermediateDerivation
deriving DecidableEq, Repr

/-- Content of one gold-step slot: match evidence, or a note of an
unmatched student step (text and whether it parsed), kept for feedback. -/
inductive SlotInfo
  | matched (conf : MatchConfidence) (text : String)
  | noted (text : String) (parsed : Bool)
deriving DecidableEq, Repr

/-- Process one student step against the gold sequence: the six cases of
spec section 4.3 in order (exhausted, exact, equivalent, intermediate,
skip-one lookahead, no match). -/
def matchStep (gold : List GoldStep) (tol : ℚ) (s : String) (g : ℕ)
    (slots : List (Option SlotInfo)) : ℕ × List (Option SlotInfo) :=
  match gold.get? g with
  | none => (g, slots)
  | some cur =>
    if equalsExact s cur.content then
      (g + 1, slots.set g (some (SlotInfo.matched MatchConfidence.Exact s)))
    else if equivalent s cur.content tol then
      (g + 1, slots.set g (some (SlotInfo.matched MatchConfidence.Equivalent s)))
    else if isIntermediateStep s
        (if g = 0 then none else (gold.get? (g - 1)).map GoldStep.content)
        cur.content tol then
      (g,
       match slots.get? g with
       | some none =>
         slots.set g (some (SlotInfo.matched MatchConfidence.IntermediateDerivation s))
       | some (some (SlotInfo.noted _ _)) =>
         slots.set g (some (SlotInfo.matched MatchConfidence.IntermediateDerivation s))
       | _ => slots)
    else
      let noMatch : ℕ × List (Option SlotInfo) :=
        (g,
         match slots.get? g with
         | some none => slots.set g (some (SlotInfo.noted s (parseMath s).isSome))
         | _ => slots)
      match gold.get? (g + 1) with
      | some nxt =>
        if equalsExact s nxt.content then
          (g + 2, slots.set (g + 1) (some (SlotInfo.matched MatchConfidence.Exact s)))
        else if equivalent s nxt.content tol then
          (g + 2, slots.set (g + 1) (some (SlotInfo.matched MatchConfidence.Equivalent s)))
        else noMatch
      | none => noMatch

/-- Fold the matcher over the student steps. -/
def matchAll (gold : List GoldStep) (tol : ℚ) :
    List String → ℕ → List (Option SlotInfo) → List (Option SlotInfo)
  | [], _, slots => slots
  | s :: rest, g, slots =>
    let p := matchStep gold tol s g slots
    matchAll gold tol rest p.1 p.2

/-- Modelled from the spec: the full matching pass, starting at gold
pointer 0 with one empty slot per gold step. -/
def matchSteps (gold : List GoldStep) (tol : ℚ) (students : List String) :
    List (Option SlotInfo) :=
  matchAll gold tol students 0 (List.replicate gold.length none)

/-! ## Scoring policy (spec section 4.4) -/

/-- The configurable partial-credit fraction (spec default one half). -/
def partialFraction : ℚ := 1 / 2

/-- Base evaluation of one gold step from its slot, before required-step
gating: status, points earned, feedback, and the received student text. -/
def baseEval (gs : GoldStep) (slot : Option SlotInfo) :
    StepStatus × ℚ × String × Option String :=
  match slot with
  | some (SlotInfo.matched MatchConfidence.Exact s) =>
    (StepStatus.correct, gs.points, "Correct", some s)
  | some (SlotInfo.matched MatchConfidence.Equivalent s) =>
    (StepStatus.correct, gs.points, "Correct (equivalent form)", some s)
  | some (SlotInfo.matched MatchConfidence.IntermediateDerivation s) =>
    (StepStatus.partiallyCorrect, partialFraction * gs.points,
     "Partially correct: intermediate derivation toward this step", some s)
  | some (SlotInfo.noted s parsed) =>
    (StepStatus.incorrect, 0,
     if parsed then "Incorrect" else "could not interpret submitted step",
     some s)
  | none => (StepStatus.incorrect, 0, "Step not attempted", none)

/-- Index of the gold step a slot was matched against, when it was. -/
def slotMatchedIndex (idx : ℕ) : Option SlotInfo → Option ℕ
  | some (SlotInfo.matched _ _) => some idx
  | _ => none

/-- Modelled from the spec: the scoring scan of spec section 4.4, walking
gold steps in order with the chain_intact flag.  While the chain is broken,
a step that would otherwise earn credit is capped at its partial-credit
fraction with the unmet prerequisite noted; a required step resolving to
Incorrect breaks the chain for everything after it. -/
def scoreSteps : ℕ → Bool → List (GoldStep × Option SlotInfo) → List StepEvaluation
  | _, _, [] => []
  | idx, chain, (gs, slot) :: rest =>
    let b := baseEval gs slot
    let st := b.1
    let cap := !chain && !(st == StepStatus.incorrect)
    let st2 := if cap then StepStatus.partiallyCorrect else st
    let pts2 := if cap then partialFraction * gs.points else b.2.1
    let fb2 := if cap then
        b.2.2.1 ++ " (credit capped: an earlier required step is missing)"
      else b.2.2.1
    let chain2 := chain && !(gs.required && st2 == StepStatus.incorrect)
    { step_number := gs.order
      status := st2
      points_earned := pts2
      points_possible := gs.points
      feedback := fb2
      matched_gold_index := slotMatchedIndex idx slot
      expected := if st2 == StepStatus.incorrect then some gs.content else none
      received := b.2.2.2 } :: scoreSteps (idx + 1) chain2 rest

/-! ## Grader facade (spec sections 4.5, 6, 7) -/

/-- Modelled from the spec: the immutable grader value, fixed rubric and
tolerance (spec section 4.5; README MathGrader(gold_steps, tolerance=1e-6)). -/
structure MathGrader where
  gold : List GoldStep
  tolerance : ℚ := 1 / 1000000
deriving DecidableEq, Repr

/-- Configuration errors, fatal at construction only (spec section 7). -/
inductive ConfigError
  | emptyRubric
  | nonIncreasingOrder
  | nonPositiveTotal
deriving DecidableEq, Repr

/-- Whether the order fields of the rubric are strictly increasing. -/
def ordersIncreasing : List GoldStep → Bool
  | [] => true
  | [_] => true
  | a :: b :: rest => a.order < b.order && ordersIncreasing (b :: rest)

/-- Total points of a rubric. -/
def totalPoints (gold : List GoldStep) : ℚ := (gold.map GoldStep.points).sum

/-- Modelled from the spec: validated construction of a grader
(spec section 4.5): an empty gold-step list, non-increasing order values,
or a non-positive point total is a configuration error; nothing else is
checked, and grading itself never raises. -/
def mkGrader (gold : List GoldStep) (tol : ℚ) : Except ConfigError MathGrader :=
  if gold.isEmpty then Except.error ConfigError.emptyRubric
  else if !ordersIncreasing gold then Except.error ConfigError.nonIncreasingOrder
  else if totalPoints gold ≤ 0 then Except.error ConfigError.nonPositiveTotal
  else Except.ok { gold := gold, tolerance := tol }

/-- Modelled from the spec: the one public operation (spec sections 4.5 and
6): normalize and match the student steps, score the gold steps under the
gating policy, and assemble totals; percentage is the exact rational
100 * total / max, and 0 for a zero max.  A total function: no grading-time
failure exists. -/
def MathGrader.grade (gr : MathGrader) (students : List String) : GradingResult :=
  let slots := matchSteps gr.gold gr.tolerance students
  let evals := scoreSteps 0 true (gr.gold.zip slots)
  let total := (evals.map StepEvaluation.points_earned).sum
  let maxS := totalPoints gr.gold
  { evaluations := evals
    total_score := total
    max_score := maxS
    percentage := if maxS = 0 then 0 else 100 * total / maxS }

/-! ## The concrete quadratic rubric of spec section 8 -/

/-- The three-step quadratic rubric used by the testable scenarios. -/
def goldQuadratic : List GoldStep :=
  [ { content := "x^2 - 5x + 6 = 0", points := 1, required := true, order := 1 },
    { content := "(x-2)(x-3)=0", points := 1, required := true, order := 2 },
    { content := "x=2 or x=3", points := 2, required := true, order := 3 } ]

/-- The grader built from the quadratic rubric at the default tolerance. -/
def graderQuadratic : MathGrader := { gold := goldQuadratic }

/-! ## Theorems

Rational arithmetic must reduce for concrete evaluation of the grading
pipeline, so the Batteries arithmetic on Rat is made semireducible locally. -/

attribute [local semireducible] Rat.add Rat.mul Rat.inv Rat.sub

/-! ### Gold-solution editor invariants -/

/-- Step numbers produced by renumbering a list from a given start. -/
lemma renumber_map_stepNumber (l : List EditorGoldStep) :
    ∀ k, (renumber k l).map EditorGoldStep.stepNumber = List.range' k l.length := by
  induction l with
  | nil => intro k; rfl
  | cons s rest ih =>
    intro k
    simp [renumber, List.range', ih (k + 1)]

/-- Renumbering preserves length. -/
lemma renumber_length (l : List EditorGoldStep) :
    ∀ k, (renumber k l).length = l.length := by
  induction l with
  | nil => intro k; rfl
  | cons s rest ih => intro k; simp [renumber, ih (k + 1)]

/-- The canonical-numbering invariant: stored step numbers are exactly
1, 2, ..., n in array order. -/
def canonicallyNumbered (steps : List EditorGoldStep) : Prop :=
  steps.map EditorGoldStep.stepNumber = List.range' 1 steps.length

/-- Adding a step through the handler preserves canonical numbering. -/
lemma handleAddStep_canonical (steps : List EditorGoldStep) (f : NewStepForm)
    (h : canonicallyNumbered steps) : canonicallyNumbered (handleAddStep steps f) := by
  unfold handleAddStep
  split
  · exact h
  · unfold canonicallyNumbered at h ⊢
    simp [List.range'_concat, h, mkGoldStep, Nat.add_comm]

/-- Removing a step always restores canonical numbering (the handler
renumbers every survivor). -/
lemma removeStep_canonical (steps : List EditorGoldStep) (n : ℕ) :
    canonicallyNumbered (removeStep steps n) := by
  unfold canonicallyNumbered removeStep
  rw [renumber_map_stepNumber, renumber_length]

/-- Any single editor action preserves canonical numbering. -/
lemma applyOp_canonical (steps : List EditorGoldStep) (op : EditorOp)
    (h : canonicallyNumbered steps) : canonicallyNumbered (applyOp steps op) := by
  cases op with
  | add f => exact handleAddStep_canonical steps f h
  | remove n => exact removeStep_canonical steps n

/-- Folding any action sequence preserves canonical numbering. -/
lemma foldl_applyOp_canonical (ops : List EditorOp) :
    ∀ steps, canonicallyNumbered steps → canonicallyNumbered (ops.foldl applyOp steps) := by
  induction ops with
  | nil => intro steps h; exact h
  | cons op rest ih =>
    intro steps h
    exact ih (applyOp steps op) (applyOp_canonical steps op h)

/-- C9: starting from the empty list, after any sequence of add-step and
remove-step operations in the gold-solution editor, the stored stepNumber
values are exactly 1, 2, ..., n in array order (hence strictly increasing
with no duplicates). -/
theorem C9_editor_step_numbers_canonical (ops : List EditorOp) :
    (runOps ops).map EditorGoldStep.stepNumber = List.range' 1 (runOps ops).length :=
  foldl_applyOp_canonical ops [] rfl

/-- C10: handleAddStep replaces falsy fields with defaults: points 0 or
unset becomes 5, required is stored as true unless the form explicitly set
it to false, and consequently no step appended by handleAddStep ever
carries zero points. -/
theorem C10_add_step_defaults (steps : List EditorGoldStep) (f : NewStepForm) :
    ((f.points = none ∨ f.points = some 0) → (mkGoldStep steps.length f).points = 5) ∧
    ((mkGoldStep steps.length f).required = decide (f.required ≠ some false)) ∧
    ((mkGoldStep steps.length f).points ≠ 0) ∧
    (∀ s ∈ handleAddStep steps f, s ∈ steps ∨ s.points ≠ 0) := by
  have hpts : (mkGoldStep steps.length f).points ≠ 0 := by
    unfold mkGoldStep jsOrNum
    cases hp : f.points with
    | none => norm_num
    | some v =>
      by_cases hv : v = 0
      · simp [hv]
      · simp [hv]
  refine ⟨?_, rfl, hpts, ?_⟩
  · rintro (hp | hp) <;> simp [mkGoldStep, jsOrNum, hp]
  · intro s hs
    unfold handleAddStep at hs
    split at hs
    · exact Or.inl hs
    · rcases List.mem_append.mp hs with h | h
      · exact Or.inl h
      · simp only [List.mem_singleton] at h
        exact Or.inr (h ▸ hpts)

/-- C10 witness: the defaults at a concrete form state with points unset
and required untouched. -/
theorem C10_add_step_defaults_witness :
    (((NewStepForm.mk none (some "x = 5 + 3") none none none).points = none ∨
      (NewStepForm.mk none (some "x = 5 + 3") none none none).points = some 0) →
      (mkGoldStep 0 (NewStepForm.mk none (some "x = 5 + 3") none none none)).points = 5) ∧
    ((mkGoldStep 0 (NewStepForm.mk none (some "x = 5 + 3") none none none)).required =
      decide ((NewStepForm.mk none (some "x = 5 + 3") none none none).required ≠ some false)) ∧
    ((mkGoldStep 0 (NewStepForm.mk none (some "x = 5 + 3") none none none)).points ≠ 0) ∧
    (∀ s ∈ handleAddStep [] (NewStepForm.mk none (some "x = 5 + 3") none none none),
      s ∈ ([] : List EditorGoldStep) ∨ s.points ≠ 0) :=
  C10_add_step_defaults [] (NewStepForm.mk none (some "x = 5 + 3") none none none)

/-! ### Percentage display and result-shape claims -/

/-- The grading-result percentage field unfolds to the exact rational
quotient guarded by the zero test. -/
lemma grade_percentage_def (gr : MathGrader) (students : List String) :
    (gr.grade students).percentage =
      if (gr.grade students).max_score = 0 then 0
      else 100 * (gr.grade students).total_score / (gr.grade students).max_score := rfl

/-- C6 counterexample: at totalScore 1 and maxScore 3 the SubmissionDetail
page displays 33, while the exact unrounded quotient is 100/3; the claim
that the displayed percentage is the exact quotient fails. -/
theorem C6_percentage_counterexample :
    scorePercentage (some 1) 3 = 33 ∧ (33 : ℚ) ≠ 100 * 1 / 3 := by
  constructor
  · decide
  · intro h
    norm_num at h

/-- C6 amended: the SubmissionDetail percentage equals the exact quotient
rounded to the nearest integer by JavaScript Math.round whenever the
maximum is positive (the unrounded value only when the quotient is already
an integer); the grading core's own percentage field is the exact quotient,
and 0 when the maximum is 0. -/
theorem C6_percentage_rounded (t m : ℚ) (_hm : 0 < m) (gr : MathGrader)
    (students : List String) :
    scorePercentage (some t) m = (jsRound (t / m * 100) : ℚ) ∧
    ((gr.grade students).max_score ≠ 0 →
      (gr.grade students).percentage =
        100 * (gr.grade students).total_score / (gr.grade students).max_score) ∧
    ((gr.grade students).max_score = 0 → (gr.grade students).percentage = 0) := by
  refine ⟨?_, ?_, ?_⟩
  · by_cases ht : t = 0
    · have : ⌊(2 : ℚ)⁻¹⌋ = 0 := by norm_num
      simp [scorePercentage, ht, jsRound, this]
    · simp [scorePercentage, ht]
  · intro h
    rw [grade_percentage_def, if_neg h]
  · intro h
    rw [grade_percentage_def, if_pos h]

/-- C6 witness: the amended statement at totalScore 1, maxScore 3, and the
quadratic grader with an empty submission. -/
theorem C6_percentage_rounded_witness :
    scorePercentage (some 1) 3 = (jsRound ((1 : ℚ) / 3 * 100) : ℚ) ∧
    ((graderQuadratic.grade []).max_score ≠ 0 →
      (graderQuadratic.grade []).percentage =
        100 * (graderQuadratic.grade []).total_score /
          (graderQuadratic.grade []).max_score) ∧
    ((graderQuadratic.grade []).max_score = 0 →
      (graderQuadratic.grade []).percentage = 0) :=
  C6_percentage_rounded 1 3 (by norm_num) graderQuadratic []

/-- C8 counterexample: the three-valued step status of the specification
cannot be carried faithfully by the boolean isCorrect field of the UI's
per-step result type: no injective map from StepStatus into Bool exists, so
the shapes are not structurally compatible as the claim states. -/
theorem C8_status_counterexample :
    ¬ ∃ f : StepStatus → Bool, Function.Injective f := by
  rintro ⟨f, hf⟩
  cases hc : f StepStatus.correct <;>
    cases hp : f StepStatus.partiallyCorrect <;>
      cases hi : f StepStatus.incorrect
  all_goals first
  | exact absurd (hf (hc.trans hp.symm)) (by decide)
  | exact absurd (hf (hc.trans hi.symm)) (by decide)
  | exact absurd (hf (hp.trans hi.symm)) (by decide)

/-- C8 amended: the per-step result consumed by the UI (StepResult in
CourseDetail.tsx) stores correctness as the two-valued boolean isCorrect
with score and maxScore fields, not the closed three-valued status
enumeration of the specification; the only available translation is the
non-injective collapse that maps a status to true exactly when it is fully
Correct, losing the distinction between PartiallyCorrect and Incorrect. -/
theorem C8_status_collapse :
    (∀ s : StepStatus, statusToIsCorrect s = true ↔ s = StepStatus.correct) ∧
    ¬ Function.Injective statusToIsCorrect := by
  constructor
  · intro s
    cases s <;> simp [statusToIsCorrect]
  · intro hf
    exact absurd
      (hf (show statusToIsCorrect StepStatus.partiallyCorrect =
        statusToIsCorrect StepStatus.incorrect from rfl))
      (by decide)

/-! ### Structural lemmas about the matcher and the scorer -/

/-- Scoring produces one evaluation per scored pair. -/
lemma scoreSteps_length (l : List (GoldStep × Option SlotInfo)) :
    ∀ idx chain, (scoreSteps idx chain l).length = l.length := by
  induction l with
  | nil => intro idx chain; rfl
  | cons p rest ih => intro idx chain; simp [scoreSteps, ih]

/-- One matcher step never changes the number of slots. -/
lemma matchStep_slots_length (gold : List GoldStep) (tol : ℚ) (s : String)
    (g : ℕ) (slots : List (Option SlotInfo)) :
    (matchStep gold tol s g slots).2.length = slots.length := by
  unfold matchStep
  repeat' split
  all_goals simp [List.length_set]

/-- The matcher fold never changes the number of slots. -/
lemma matchAll_slots_length (gold : List GoldStep) (tol : ℚ) (students : List String) :
    ∀ g slots, (matchAll gold tol students g slots).length = slots.length := by
  induction students with
  | nil => intro g slots; rfl
  | cons s rest ih =>
    intro g slots
    show (matchAll gold tol rest (matchStep gold tol s g slots).1
      (matchStep gold tol s g slots).2).length = slots.length
    rw [ih, matchStep_slots_length]

/-- The matcher returns exactly one slot per gold step. -/
lemma matchSteps_length (gold : List GoldStep) (tol : ℚ) (students : List String) :
    (matchSteps gold tol students).length = gold.length := by
  unfold matchSteps
  rw [matchAll_slots_length, List.length_replicate]

/-- Points earned by the base evaluation of a slot lie between 0 and the
step's point value. -/
lemma baseEval_bounds (gs : GoldStep) (slot : Option SlotInfo) (h : 0 ≤ gs.points) :
    0 ≤ (baseEval gs slot).2.1 ∧ (baseEval gs slot).2.1 ≤ gs.points := by
  cases slot with
  | none => exact ⟨le_refl 0, h⟩
  | some s =>
    cases s with
    | matched conf t =>
      cases conf with
      | Exact => exact ⟨h, le_refl _⟩
      | Equivalent => exact ⟨h, le_refl _⟩
      | IntermediateDerivation =>
        constructor
        · show (0 : ℚ) ≤ 1 / 2 * gs.points
          linarith
        · show 1 / 2 * gs.points ≤ gs.points
          linarith
    | noted t p => exact ⟨le_refl 0, h⟩

/-- Every evaluation produced by the scoring scan earns between 0 and its
possible points, provided the rubric's point values are nonnegative. -/
lemma scoreSteps_points_bounds (l : List (GoldStep × Option SlotInfo)) :
    ∀ idx chain, (∀ p ∈ l, 0 ≤ p.1.points) →
      ∀ e ∈ scoreSteps idx chain l,
        0 ≤ e.points_earned ∧ e.points_earned ≤ e.points_possible := by
  induction l with
  | nil => intro idx chain _ e he; simp [scoreSteps] at he
  | cons p rest ih =>
    intro idx chain h e he
    have hp : 0 ≤ p.1.points := h p (List.mem_cons_self p rest)
    rw [scoreSteps] at he
    rcases List.mem_cons.mp he with rfl | hrest
    · dsimp only
      split
      · constructor
        · simp only [partialFraction]
          linarith
        · simp only [partialFraction]
          linarith
      · exact baseEval_bounds p.1 p.2 hp
    · exact ih (idx + 1) _ (fun q hq => h q (List.mem_cons_of_mem p hq)) e hrest

/-- The possible points of the evaluations are the rubric's point values in
order. -/
lemma scoreSteps_map_possible (l : List (GoldStep × Option SlotInfo)) :
    ∀ idx chain, (scoreSteps idx chain l).map StepEvaluation.points_possible =
      l.map (fun p => p.1.points) := by
  induction l with
  | nil => intro idx chain; rfl
  | cons p rest ih => intro idx chain; simp [scoreSteps, ih]

/-! ### Grading-core claims -/

/-- C1: on the quadratic rubric, the submission repeating the three gold
strings verbatim earns the full 4.0 points, a 100 percentage, and a Correct
status on every evaluation. -/
theorem C1_exact_match_scenario :
    (graderQuadratic.grade
      ["x^2 - 5x + 6 = 0", "(x-2)(x-3)=0", "x=2 or x=3"]).total_score = 4 ∧
    (graderQuadratic.grade
      ["x^2 - 5x + 6 = 0", "(x-2)(x-3)=0", "x=2 or x=3"]).percentage = 100 ∧
    ∀ e ∈ (graderQuadratic.grade
      ["x^2 - 5x + 6 = 0", "(x-2)(x-3)=0", "x=2 or x=3"]).evaluations,
      e.status = StepStatus.correct := by
  decide

/-- C2: on the quadratic rubric, the submission skipping the factoring step
earns Correct (1.0) on gold step 1, Incorrect (0, expected the factoring)
on gold step 2, and a gating-capped PartiallyCorrect 1.0 of 2.0 on gold
step 3, for 2.0 of 4.0 total. -/
theorem C2_missing_required_step_gating :
    ((graderQuadratic.grade ["x^2 - 5x + 6 = 0", "x = 2 or x = 3"]).evaluations.map
        StepEvaluation.status =
      [StepStatus.correct, StepStatus.incorrect, StepStatus.partiallyCorrect]) ∧
    ((graderQuadratic.grade ["x^2 - 5x + 6 = 0", "x = 2 or x = 3"]).evaluations.map
        StepEvaluation.points_earned = [1, 0, 1]) ∧
    ((graderQuadratic.grade ["x^2 - 5x + 6 = 0", "x = 2 or x = 3"]).evaluations.map
        StepEvaluation.points_possible = [1, 1, 2]) ∧
    ((graderQuadratic.grade ["x^2 - 5x + 6 = 0", "x = 2 or x = 3"]).evaluations.map
        StepEvaluation.expected = [none, some "(x-2)(x-3)=0", none]) ∧
    (graderQuadratic.grade ["x^2 - 5x + 6 = 0", "x = 2 or x = 3"]).total_score = 2 ∧
    (graderQuadratic.grade ["x^2 - 5x + 6 = 0", "x = 2 or x = 3"]).max_score = 4 := by
  decide

/-- C3: for every rubric and every submission, grading returns exactly one
evaluation per gold step, never one per student step. -/
theorem C3_one_evaluation_per_gold_step (gr : MathGrader) (students : List String) :
    (gr.grade students).evaluations.length = gr.gold.length := by
  show (scoreSteps 0 true (gr.gold.zip (matchSteps gr.gold gr.tolerance students))).length
    = gr.gold.length
  rw [scoreSteps_length, List.length_zip, matchSteps_length, Nat.min_self]

/-- C4: for every rubric with nonnegative point values and every
submission, the total score lies between 0 and the maximum, the total is
the sum of earned points over the evaluations, and the maximum is the sum
of the rubric's point values. -/
theorem C4_score_bounds (gr : MathGrader) (students : List String)
    (h : ∀ g ∈ gr.gold, 0 ≤ g.points) :
    0 ≤ (gr.grade students).total_score ∧
    (gr.grade students).total_score ≤ (gr.grade students).max_score ∧
    (gr.grade students).total_score =
      ((gr.grade students).evaluations.map StepEvaluation.points_earned).sum ∧
    (gr.grade students).max_score = (gr.gold.map GoldStep.points).sum := by
  have hb : ∀ e ∈ (gr.grade students).evaluations,
      0 ≤ e.points_earned ∧ e.points_earned ≤ e.points_possible := by
    apply scoreSteps_points_bounds
    intro p hp
    exact h p.1 (List.of_mem_zip hp).1
  refine ⟨?_, ?_, rfl, rfl⟩
  · apply List.sum_nonneg
    intro x hx
    rcases List.mem_map.mp hx with ⟨e, he, rfl⟩
    exact (hb e he).1
  · show ((gr.grade students).evaluations.map StepEvaluation.points_earned).sum ≤
      totalPoints gr.gold
    have h1 : ((gr.grade students).evaluations.map StepEvaluation.points_earned).sum ≤
        ((gr.grade students).evaluations.map StepEvaluation.points_possible).sum :=
      List.sum_le_sum (fun e he => (hb e he).2)
    have h2 : ((gr.grade students).evaluations.map StepEvaluation.points_possible) =
        gr.gold.map GoldStep.points := by
      show (scoreSteps 0 true
          (gr.gold.zip (matchSteps gr.gold gr.tolerance students))).map
          StepEvaluation.points_possible = _
      rw [scoreSteps_map_possible]
      have hfst : (gr.gold.zip (matchSteps gr.gold gr.tolerance students)).map
          Prod.fst = gr.gold :=
        List.map_fst_zip _ _ (le_of_eq (matchSteps_length gr.gold gr.tolerance students).symm)
      calc (gr.gold.zip (matchSteps gr.gold gr.tolerance students)).map (fun p => p.1.points)
          = ((gr.gold.zip (matchSteps gr.gold gr.tolerance students)).map
              Prod.fst).map GoldStep.points := by rw [List.map_map]; rfl
        _ = gr.gold.map GoldStep.points := by rw [hfst]
    rw [h2] at h1
    exact h1

/-- C4 witness: the bounds at the quadratic rubric and the skipping
submission. -/
theorem C4_score_bounds_witness :
    0 ≤ (graderQuadratic.grade ["x^2 - 5x + 6 = 0", "x = 2 or x = 3"]).total_score ∧
    (graderQuadratic.grade ["x^2 - 5x + 6 = 0", "x = 2 or x = 3"]).total_score ≤
      (graderQuadratic.grade ["x^2 - 5x + 6 = 0", "x = 2 or x = 3"]).max_score ∧
    (graderQuadratic.grade ["x^2 - 5x + 6 = 0", "x = 2 or x = 3"]).total_score =
      ((graderQuadratic.grade ["x^2 - 5x + 6 = 0", "x = 2 or x = 3"]).evaluations.map
        StepEvaluation.points_earned).sum ∧
    (graderQuadratic.grade ["x^2 - 5x + 6 = 0", "x = 2 or x = 3"]).max_score =
      (graderQuadratic.gold.map GoldStep.points).sum :=
  C4_score_bounds graderQuadratic ["x^2 - 5x + 6 = 0", "x = 2 or x = 3"] (by decide)

/-- C5: grading never fails on malformed per-step input: the prose step has
no parse, yet grading the submission containing it still produces the full
per-gold-step result with the could-not-interpret feedback on the step it
occupied and the remaining steps graded unaffected; and construction fails
exactly on the three configuration errors (empty rubric, non-increasing
order, non-positive total points), so no error is raised during a grade
call. -/
theorem C5_parse_error_recovered_config_only :
    parseMath "I think the answer is probably something" = none ∧
    ((graderQuadratic.grade ["x^2 - 5x + 6 = 0",
        "I think the answer is probably something", "x=2 or x=3"]).evaluations.map
      StepEvaluation.status =
      [StepStatus.correct, StepStatus.incorrect, StepStatus.partiallyCorrect]) ∧
    ((graderQuadratic.grade ["x^2 - 5x + 6 = 0",
        "I think the answer is probably something", "x=2 or x=3"]).evaluations.map
      StepEvaluation.feedback =
      ["Correct", "could not interpret submitted step",
       "Correct (credit capped: an earlier required step is missing)"]) ∧
    (graderQuadratic.grade ["x^2 - 5x + 6 = 0",
        "I think the answer is probably something", "x=2 or x=3"]).total_score = 2 ∧
    (∀ gold tol, (∃ gr2, mkGrader gold tol = Except.ok gr2) ↔
      (gold ≠ [] ∧ ordersIncreasing gold = true ∧ 0 < totalPoints gold)) := by
  refine ⟨by decide, by decide, by decide, by decide, ?_⟩
  intro gold tol
  constructor
  · rintro ⟨gr2, hgr⟩
    unfold mkGrader at hgr
    split_ifs at hgr with h1 h2 h3
    refine ⟨?_, ?_, ?_⟩
    · intro hnil
      exact h1 (by simp [hnil])
    · rcases Bool.eq_false_or_eq_true (ordersIncreasing gold) with ho | ho
      · exact ho
      · exact absurd (by simp [ho]) h2
    · exact lt_of_not_le h3
  · rintro ⟨hne, hord, hpos⟩
    refine ⟨{ gold := gold, tolerance := tol }, ?_⟩
    unfold mkGrader
    rw [if_neg (by simp [hne]), if_neg (by simp [hord]), if_neg (not_le.mpr hpos)]

/-- C7: grading is deterministic: two calls on the same grader with the
same student steps produce the same result; in this embedding the whole
pipeline, including the equivalence check's sampling (driven by the
constant fixedSeed and nothing else), is a pure function of the rubric, the
steps and the tolerance. -/
theorem C7_grade_deterministic (gr : MathGrader) (students : List String) :
    gr.grade students = gr.grade students := rfl

end MathMind
